import Mathlib

/-!
Verification of the resilient LLM invocation pipeline (graphrag Claude port).

Shallow embedding of:
* `graphrag/llm/openai/_json.py` (clean_up_json, fix_json_structure, extract_json_object)
* `graphrag/llm/claude/claude_chat_llm.py` (_invoke_json, _manual_json, _native_json,
  the system-message normalization of _execute_llm)
* `graphrag/query/llm/claude/chat_claude.py` and `claude.py`
  (generate / agenerate retry wrappers, _generate streaming loop)
* `graphrag/query/llm/claude/typing.py` (CLAUDE_RETRY_ERROR_TYPES)

External libraries are embedded by their documented semantics:
* Python `json.loads` / `json.dumps` are modelled by `parseJson` / `jsonDumps`
  on the integer fragment of JSON numerals (no float, NaN or Infinity literals;
  `\uXXXX` escapes are decoded without surrogate pairing).  All inputs used in
  concrete theorems fall inside this fragment.
* Python `str.replace`, `str.strip`, `str.startswith`, `str.endswith` are
  modelled by `pyReplace`, `pyStrip`, `List.isPrefixOf`, `List.isSuffixOf`.
* The specific regular expressions of `_json.py` are modelled by dedicated
  scanning functions whose semantics match Python's backtracking engine on
  those patterns (`regexSearch`, `fixCommas`, `fixQuotes`).
* `tenacity.Retrying(stop=stop_after_attempt(n), reraise=True,
  retry=retry_if_exception_type(...))` is modelled by `tenacityRetry`:
  after a failed attempt, a non-retryable exception is re-raised immediately;
  otherwise, if the attempt number has reached `n` the retryer stops, and with
  `reraise=True` it re-raises the last underlying exception instead of a
  `RetryError`; otherwise it waits (backoff) and retries.
-/

/-- Python whitespace for `str.strip` (default): space, tab, newline, CR, VT, FF. -/
def isPySpace (c : Char) : Bool :=
  c = ' ' || c = '\t' || c = '\n' || c = '\r' || c = '\x0b' || c = '\x0c'

/-- Python `str.strip()` on character lists. -/
def pyStrip (s : List Char) : List Char :=
  ((s.dropWhile isPySpace).reverse.dropWhile isPySpace).reverse

/-- Python `str.replace(pat, repl)`, fuel-driven scan: leftmost,
non-overlapping replacement of every occurrence. One fuel unit per scanned
position; the wrapper supplies `s.length`, which is ample since every step
consumes at least one character. (Never invoked with an empty pattern.) -/
def pyReplaceGo (pat repl : List Char) : Nat → List Char → List Char
  | 0, s => s
  | fuel + 1, s =>
    match s with
    | [] => []
    | c :: rest =>
      if pat ≠ [] ∧ pat.isPrefixOf (c :: rest) then
        repl ++ pyReplaceGo pat repl fuel ((c :: rest).drop pat.length)
      else
        c :: pyReplaceGo pat repl fuel rest

/-- Python `str.replace(pat, repl)` on character lists. -/
def pyReplace (pat repl s : List Char) : List Char :=
  pyReplaceGo pat repl s.length s

/-- Substring occurrence test: does `pat` occur contiguously in `s`? -/
def containsSub (pat : List Char) : List Char → Bool
  | [] => pat.isEmpty
  | c :: rest => pat.isPrefixOf (c :: rest) || containsSub pat rest

/-! ## JSON values and parser (model of Python `json.loads`, integer fragment) -/

/-- A JSON value. Objects keep key insertion order (Python `dict` semantics:
a duplicate key overwrites the value in place). Numbers are restricted to the
integer fragment of the JSON numeral grammar. -/
inductive JValue where
  | null : JValue
  | bool (b : Bool) : JValue
  | num (n : Int) : JValue
  | str (s : String) : JValue
  | arr (xs : List JValue) : JValue
  | obj (xs : List (String × JValue)) : JValue

/-- Python `dict` insertion: a duplicate key overwrites in place, a new key
is appended at the end. -/
def insertPair : List (String × JValue) → String → JValue → List (String × JValue)
  | [], k, v => [(k, v)]
  | (k', v') :: rest, k, v =>
    if k' = k then (k, v) :: rest else (k', v') :: insertPair rest k v

/-- JSON inter-token whitespace (`json` module): space, tab, newline, CR. -/
def isJsonWs (c : Char) : Bool :=
  c = ' ' || c = '\t' || c = '\n' || c = '\r'

/-- Skip JSON whitespace. -/
def skipWs (s : List Char) : List Char := s.dropWhile isJsonWs

/-- Hexadecimal digit value. -/
def hexVal (c : Char) : Option Nat :=
  if '0' ≤ c ∧ c ≤ '9' then some (c.toNat - '0'.toNat)
  else if 'a' ≤ c ∧ c ≤ 'f' then some (c.toNat - 'a'.toNat + 10)
  else if 'A' ≤ c ∧ c ≤ 'F' then some (c.toNat - 'A'.toNat + 10)
  else none

/-- JSON string escape characters (strict mode: unknown escapes are errors). -/
def escChar (c : Char) : Option Char :=
  if c = '"' then some '"'
  else if c = '\\' then some '\\'
  else if c = '/' then some '/'
  else if c = 'b' then some '\x08'
  else if c = 'f' then some '\x0c'
  else if c = 'n' then some '\n'
  else if c = 'r' then some '\r'
  else if c = 't' then some '\t'
  else none

/-- Parse the body of a JSON string after the opening quote; returns the
decoded characters and the remainder after the closing quote. Strict mode:
raw control characters (below 0x20) and unknown escapes are rejected. -/
def parseStringBody : List Char → Option (List Char × List Char)
  | [] => none
  | '"' :: rest => some ([], rest)
  | '\\' :: 'u' :: h1 :: h2 :: h3 :: h4 :: rest =>
    match hexVal h1, hexVal h2, hexVal h3, hexVal h4 with
    | some a, some b, some c, some d =>
      match parseStringBody rest with
      | some (cs, r) => some (Char.ofNat (((a * 16 + b) * 16 + c) * 16 + d) :: cs, r)
      | none => none
    | _, _, _, _ => none
  | '\\' :: e :: rest =>
    match escChar e with
    | some ec =>
      match parseStringBody rest with
      | some (cs, r) => some (ec :: cs, r)
      | none => none
    | none => none
  | c :: rest =>
    if c.toNat < 32 then none
    else
      match parseStringBody rest with
      | some (cs, r) => some (c :: cs, r)
      | none => none

/-- Does the remainder start a fractional or exponent part of a JSON number?
(Those produce Python floats and are outside the modelled fragment.) -/
def hasFracOrExp (s : List Char) : Bool :=
  match s with
  | '.' :: d :: _ => d.isDigit
  | 'e' :: '+' :: d :: _ => d.isDigit
  | 'e' :: '-' :: d :: _ => d.isDigit
  | 'e' :: d :: _ => d.isDigit
  | 'E' :: '+' :: d :: _ => d.isDigit
  | 'E' :: '-' :: d :: _ => d.isDigit
  | 'E' :: d :: _ => d.isDigit
  | _ => false

/-- Digits to a natural number (most significant first). -/
def digitsToNat (ds : List Char) : Nat :=
  ds.foldl (fun acc c => acc * 10 + (c.toNat - '0'.toNat)) 0

/-- Parse a JSON integer numeral `-?(0|[1-9][0-9]*)`, rejecting numerals that
continue with a fraction or exponent (float fragment, not modelled). A numeral
with leading zeros parses its leading `0` only, exactly as Python's scanner
does (the stray digits then fail in the surrounding context). -/
def parseNum (s : List Char) : Option (Int × List Char) :=
  let (neg, s1) : Bool × List Char :=
    match s with
    | '-' :: r => (true, r)
    | _ => (false, s)
  match s1 with
  | '0' :: r => if hasFracOrExp r then none else some (0, r)
  | c :: _ =>
    if '1' ≤ c ∧ c ≤ '9' then
      let ds := s1.takeWhile Char.isDigit
      let rest := s1.dropWhile Char.isDigit
      if hasFracOrExp rest then none
      else some (if neg then -(digitsToNat ds : Int) else (digitsToNat ds : Int), rest)
    else none
  | [] => none

mutual

/-- One JSON value at the head of the input (whitespace already skipped),
modelling the `json` module's `scan_once`. Fuel-driven; the top-level entry
point supplies ample fuel. -/
def parseVal : Nat → List Char → Option (JValue × List Char)
  | 0, _ => none
  | fuel + 1, s =>
    match s with
    | '{' :: rest => parseObjBody fuel rest
    | '[' :: rest => parseArrBody fuel rest
    | '"' :: rest =>
      match parseStringBody rest with
      | some (cs, r) => some (JValue.str (String.mk cs), r)
      | none => none
    | 't' :: 'r' :: 'u' :: 'e' :: rest => some (JValue.bool true, rest)
    | 'f' :: 'a' :: 'l' :: 's' :: 'e' :: rest => some (JValue.bool false, rest)
    | 'n' :: 'u' :: 'l' :: 'l' :: rest => some (JValue.null, rest)
    | _ =>
      match parseNum s with
      | some (n, r) => some (JValue.num n, r)
      | none => none

/-- Object body after the opening brace. -/
def parseObjBody : Nat → List Char → Option (JValue × List Char)
  | 0, _ => none
  | fuel + 1, rest =>
    match skipWs rest with
    | '}' :: r2 => some (JValue.obj [], r2)
    | r => parseMembers fuel r []

/-- Object members, starting at a key's opening quote. -/
def parseMembers : Nat → List Char → List (String × JValue) →
    Option (JValue × List Char)
  | 0, _, _ => none
  | fuel + 1, s, acc =>
    match s with
    | '"' :: r =>
      match parseStringBody r with
      | none => none
      | some (kcs, r2) =>
        match skipWs r2 with
        | ':' :: r4 =>
          match parseVal fuel (skipWs r4) with
          | none => none
          | some (v, r6) =>
            match skipWs r6 with
            | ',' :: r8 => parseMembers fuel (skipWs r8) (insertPair acc (String.mk kcs) v)
            | '}' :: r8 => some (JValue.obj (insertPair acc (String.mk kcs) v), r8)
            | _ => none
        | _ => none
    | _ => none

/-- Array body after the opening bracket. -/
def parseArrBody : Nat → List Char → Option (JValue × List Char)
  | 0, _ => none
  | fuel + 1, rest =>
    match skipWs rest with
    | ']' :: r2 => some (JValue.arr [], r2)
    | r => parseElems fuel r []

/-- Array elements. -/
def parseElems : Nat → List Char → List JValue → Option (JValue × List Char)
  | 0, _, _ => none
  | fuel + 1, s, acc =>
    match parseVal fuel s with
    | none => none
    | some (v, r) =>
      match skipWs r with
      | ',' :: r3 => parseElems fuel (skipWs r3) (acc ++ [v])
      | ']' :: r3 => some (JValue.arr (acc ++ [v]), r3)
      | _ => none

end

/-- Model of Python `json.loads` on character lists: optional surrounding
whitespace, one value, nothing else ("Extra data" otherwise). `none` models a
raised `json.JSONDecodeError`. -/
def parseJsonL (s : List Char) : Option JValue :=
  match parseVal (4 * (s.length + 1)) (skipWs s) with
  | some (v, r) => if skipWs r = [] then some v else none
  | none => none

/-- Model of Python `json.loads` on strings. -/
def parseJson (s : String) : Option JValue := parseJsonL s.data

/-! ## Model of Python `json.dumps` (default options: `ensure_ascii=True`,
item separator `", "`, key separator `": "`, insertion key order) -/

/-- Four lowercase hex digits, as Python's `\uXXXX` escapes. -/
def hex4 (n : Nat) : List Char :=
  let d := fun (k : Nat) =>
    if k < 10 then Char.ofNat ('0'.toNat + k) else Char.ofNat ('a'.toNat + (k - 10))
  [d (n / 4096 % 16), d (n / 256 % 16), d (n / 16 % 16), d (n % 16)]

/-- Encoding of one character inside a dumped JSON string (`ensure_ascii`):
printable ASCII except quote and backslash is kept, short escapes for the
usual control characters, `\uXXXX` otherwise (surrogate pairs above 0xFFFF). -/
def dumpChar (c : Char) : List Char :=
  if c = '"' then ['\\', '"']
  else if c = '\\' then ['\\', '\\']
  else if c = '\n' then ['\\', 'n']
  else if c = '\r' then ['\\', 'r']
  else if c = '\t' then ['\\', 't']
  else if c = '\x08' then ['\\', 'b']
  else if c = '\x0c' then ['\\', 'f']
  else if 0x20 ≤ c.toNat ∧ c.toNat ≤ 0x7e then [c]
  else if c.toNat ≤ 0xffff then '\\' :: 'u' :: hex4 c.toNat
  else
    let n := c.toNat - 0x10000
    ('\\' :: 'u' :: hex4 (0xd800 + n / 1024)) ++ ('\\' :: 'u' :: hex4 (0xdc00 + n % 1024))

/-- A dumped JSON string, quotes included. -/
def dumpStr (s : String) : List Char :=
  '"' :: s.data.foldr (fun c acc => dumpChar c ++ acc) ['"']

mutual

/-- `json.dumps` of a value, fuel-driven (one unit per recursive call; the
wrapper supplies `sizeOf`, which dominates the recursion depth). -/
def jsonDumpsV : Nat → JValue → List Char
  | 0, _ => []
  | _ + 1, JValue.null => "null".data
  | _ + 1, JValue.bool true => "true".data
  | _ + 1, JValue.bool false => "false".data
  | _ + 1, JValue.num n => (toString n).data
  | _ + 1, JValue.str s => dumpStr s
  | fuel + 1, JValue.arr xs => '[' :: jsonDumpsArr fuel xs
  | fuel + 1, JValue.obj xs => '{' :: jsonDumpsObj fuel xs

/-- Array items joined by `", "`, with the closing bracket. -/
def jsonDumpsArr : Nat → List JValue → List Char
  | 0, _ => []
  | _ + 1, [] => [']']
  | fuel + 1, [x] => jsonDumpsV fuel x ++ [']']
  | fuel + 1, x :: xs => jsonDumpsV fuel x ++ ", ".data ++ jsonDumpsArr fuel xs

/-- Object members `"key": value` joined by `", "`, with the closing brace. -/
def jsonDumpsObj : Nat → List (String × JValue) → List Char
  | 0, _ => []
  | _ + 1, [] => ['}']
  | fuel + 1, [(k, v)] => dumpStr k ++ ": ".data ++ jsonDumpsV fuel v ++ ['}']
  | fuel + 1, (k, v) :: xs =>
    dumpStr k ++ ": ".data ++ jsonDumpsV fuel v ++ ", ".data ++ jsonDumpsObj fuel xs

end

/-- Model of Python `json.dumps` with its default options. The fuel must
dominate the recursion depth; callers pass a bound derived from the length of
the text the value was parsed from, which always suffices since every parsed
node consumed at least one input character. -/
def jsonDumps (fuel : Nat) (v : JValue) : List Char := jsonDumpsV fuel v

/-! ## `_json.py`: fix_json_structure, extract_json_object, clean_up_json -/

/-- `re.sub(r'}\s*{', '},{', s)`: insert a comma between `}` and the next `{`
separated only by whitespace. Leftmost, non-overlapping; the scan resumes
after each replaced region, exactly as Python's `re.sub`. Fuel-driven (one
unit per consumed character). -/
def fixCommasGo : Nat → List Char → List Char
  | 0, s => s
  | fuel + 1, s =>
    match s with
    | [] => []
    | '}' :: rest =>
      match rest.dropWhile isPySpace with
      | '{' :: rest2 => '}' :: ',' :: '{' :: fixCommasGo fuel rest2
      | _ => '}' :: fixCommasGo fuel rest
    | c :: rest => c :: fixCommasGo fuel rest

/-- The comma-insertion pass of `fix_json_structure`. -/
def fixCommas (s : List Char) : List Char := fixCommasGo s.length s

/-- The lazy group of `re.sub(r'(?<=: ")(.+?)(?="[,}])', ...)`: the shortest
nonempty newline-free run of characters after the current position that is
immediately followed by a quote and then `,` or `}`. Returns the matched
content and the remainder (starting at the lookahead quote), or `none` when
no match starts here. -/
def lazyGo : List Char → List Char → Option (List Char × List Char)
  | [], _ => none
  | c :: rest, acc =>
    if c = '\n' then none
    else
      match rest with
      | '"' :: d :: r2 =>
        if d = ',' ∨ d = '}' then some ((c :: acc).reverse, '"' :: d :: r2)
        else lazyGo rest (c :: acc)
      | _ => lazyGo rest (c :: acc)

/-- The replacement lambda: escape every quote inside the matched content. -/
def escQuotes (cs : List Char) : List Char :=
  cs.foldr (fun c acc => if c = '"' then '\\' :: '"' :: acc else c :: acc) []

/-- The quote-escaping pass of `fix_json_structure`. `out` is the reversed
output built so far, `orig` the reversed original characters consumed so far
(lookbehind examines the original string, as Python's `re` does), and the fuel
(one unit per consumed character; the wrapper supplies the input length). -/
def fixQuotesGo : Nat → List Char → List Char → List Char → List Char
  | 0, out, _, rem => out.reverse ++ rem
  | _ + 1, out, _, [] => out.reverse
  | fuel + 1, out, orig, c :: rest =>
    match orig with
    | '"' :: ' ' :: ':' :: _ =>
      match lazyGo (c :: rest) [] with
      | some (content, after) =>
        fixQuotesGo fuel ((escQuotes content).reverse ++ out) (content.reverse ++ orig) after
      | none => fixQuotesGo fuel (c :: out) (c :: orig) rest
    | _ => fixQuotesGo fuel (c :: out) (c :: orig) rest

/-- The quote-escaping pass of `fix_json_structure`. -/
def fixQuotes (s : List Char) : List Char := fixQuotesGo s.length [] [] s

/-- `fix_json_structure`: comma insertion, then quote escaping. -/
def fixJsonStructure (s : List Char) : List Char := fixQuotes (fixCommas s)

/-- The balanced-brace span starting at the current position (which holds the
opening `{` and is passed with `depth = 0`): the prefix ending where the brace
counter first returns to zero, together with the maximum nesting depth seen.
`none` when the braces never close. -/
def spanGo : List Char → Nat → Nat → List Char → Option (List Char × Nat)
  | [], _, _, _ => none
  | c :: rest, depth, maxd, acc =>
    if c = '{' then
      spanGo rest (depth + 1) (max maxd (depth + 1)) (c :: acc)
    else if c = '}' then
      if depth = 1 then some ((c :: acc).reverse, maxd)
      else if depth = 0 then none
      else spanGo rest (depth - 1) maxd (c :: acc)
    else spanGo rest depth maxd (c :: acc)

/-- `re.search(r'\{(?:[^{}]|\{(?:[^{}]|\{[^{}]*\})*\})*\}', s, re.DOTALL)`:
the regex matches, at a given start, exactly the balanced-brace prefix
provided its nesting depth is at most 3 (the pattern hard-codes three levels);
`re.search` returns the match at the leftmost start where one exists. -/
def regexSearch : List Char → Option (List Char)
  | [] => none
  | c :: rest =>
    if c = '{' then
      match spanGo (c :: rest) 0 0 [] with
      | some (span, maxd) =>
        if maxd ≤ 3 then some span else regexSearch rest
      | none => regexSearch rest
    else regexSearch rest

/-- `extract_json_object`: search for the first balanced-brace substring, try
to parse it, and on failure parse the structurally repaired substring; `none`
models every failure path (no match, or both parses raising
`json.JSONDecodeError`, which the source catches). -/
def extractJsonObjectL (s : List Char) : Option JValue :=
  match regexSearch s with
  | none => none
  | some span =>
    match parseJsonL span with
    | some v => some v
    | none =>
      match parseJsonL (fixJsonStructure span) with
      | some v => some v
      | none => none

/-- The markdown-fence stripping steps of `clean_up_json` (three sequential
conditionals: a leading ```` ```json ````, a leading `json`, a trailing
```` ``` ````). -/
def stripFences (s : List Char) : List Char :=
  let s1 := if ("```json".data).isPrefixOf s then s.drop 7 else s
  let s2 := if ("json".data).isPrefixOf s1 then s1.drop 4 else s1
  if ("```".data).isSuffixOf s2 then s2.take (s2.length - 3) else s2

/-- `clean_up_json` on character lists: the chain of `str.replace` calls, the
strip, the fence removal, then: return the text if it parses, else return the
dump of the extracted object if one is found, else return the text. -/
def cleanUpJsonL (s : List Char) : List Char :=
  let t := pyStrip
    (pyReplace ['\\'] []
      (pyReplace ('}' :: ']' :: '"' :: []) ('}' :: ']' :: [])
        (pyReplace ('"' :: '[' :: '{' :: []) ('[' :: '{' :: [])
          (pyReplace ['\r'] []
            (pyReplace ['\n'] []
              (pyReplace ['\\', 'n'] [] s))))))
  let t2 := stripFences t
  match parseJsonL t2 with
  | some _ => t2
  | none =>
    match extractJsonObjectL t2 with
    | some obj => jsonDumps (4 * (t2.length + 1)) obj
    | none => t2

/-- `clean_up_json` on strings. -/
def cleanUpJson (s : String) : String := String.mk (cleanUpJsonL s.data)

/-! ## Message normalization
(`ChatClaude.generate` / `Claude.generate` / `ClaudeChatLLM._execute_llm`:
all three run the same scan: a `system`-role turn overwrites the extracted
system message, every other turn is appended to the filtered list.) -/

/-- A conversation turn (`{'role': ..., 'content': ...}`). -/
structure Turn where
  role : String
  content : String
deriving DecidableEq

/-- The normalization scan: `sys` is the current `system_message`, `acc` the
`filtered_messages` built so far. -/
def extractSystemGo : Option String → List Turn → List Turn →
    Option String × List Turn
  | sys, acc, [] => (sys, acc)
  | sys, acc, m :: rest =>
    if m.role = "system" then extractSystemGo (some m.content) acc rest
    else extractSystemGo sys (acc ++ [m]) rest

/-- The message normalizer: one scan, last system turn wins, other turns
keep their order. -/
def extractSystem (msgs : List Turn) : Option String × List Turn :=
  extractSystemGo none [] msgs

/-- The `messages` argument of `generate` / `agenerate`: either a plain
string or a list of turns. -/
inductive MessagesArg where
  | str (s : String) : MessagesArg
  | list (ms : List Turn) : MessagesArg

/-- The normalization preamble of `generate` / `agenerate`: when `messages`
is a string, the `isinstance` guard skips the scan, leaving
`system_message = None` and `filtered_messages = []`; the subsequent
unconditional `messages = filtered_messages` then discards the string. -/
def normalizeArg : MessagesArg → Option String × List Turn
  | MessagesArg.str _ => (none, [])
  | MessagesArg.list ms => extractSystem ms

/-- `if system_message: kwargs['system'] = system_message` — Python
truthiness: an empty extracted content is not forwarded. -/
def kwargsSystem : Option String → Option String
  | none => none
  | some c => if c = "" then none else some c

/-- The request assembled by the preamble and handed to the client call. -/
structure SentRequest where
  model : String
  system : Option String
  messages : List Turn
deriving DecidableEq

/-- The request `generate` / `agenerate` transmit for a given `messages`
argument. -/
def sentRequest (model : String) (arg : MessagesArg) : SentRequest :=
  ⟨model, kwargsSystem (normalizeArg arg).1, (normalizeArg arg).2⟩

/-! ## Retry wrapper (`generate` / `agenerate` around `_generate` /
`_agenerate`, via `tenacity`) -/

/-- The exception kinds reaching the retry wrapper. -/
inductive PyError where
  | rateLimit : PyError
  | apiConnection : PyError
  | valueErrorModelRequired : PyError
  | nameErrorDelta : PyError
deriving DecidableEq

/-- `retry_if_exception_type(CLAUDE_RETRY_ERROR_TYPES)` with
`CLAUDE_RETRY_ERROR_TYPES = (anthropic.RateLimitError,
anthropic.APIConnectionError)` (typing.py). -/
def retryableErr : PyError → Bool
  | PyError.rateLimit => true
  | PyError.apiConnection => true
  | PyError.valueErrorModelRequired => false
  | PyError.nameErrorDelta => false

/-- How one logical retryer run ends: a successful body, a directly
re-raised exception (non-retryable failure, or exhaustion under
`reraise=True`), or a `tenacity.RetryError` (exhaustion under
`reraise=False` only). -/
inductive RetryResult where
  | success (s : String) : RetryResult
  | rethrown (e : PyError) : RetryResult
  | retryError (e : PyError) : RetryResult
deriving DecidableEq

/-- Outcome of a retryer run plus its observable attempt statistics. -/
structure RetryTrace where
  result : RetryResult
  attempts : Nat
  waits : Nat
deriving DecidableEq

/-- One run of `tenacity.(Async)Retrying(stop=stop_after_attempt(n),
wait=wait_exponential_jitter(max=10), reraise, retry=
retry_if_exception_type(CLAUDE_RETRY_ERROR_TYPES))` over a body whose
outcome on attempt `k` (1-based) is `body k`. After a failed attempt:
a non-retryable exception is re-raised at once (no wait); otherwise, if the
attempt number has reached `n` the retryer stops — re-raising the last
exception when `reraise` is set, raising `RetryError` otherwise — and
otherwise it sleeps (counted in `waits`) and runs the next attempt. The first
attempt always runs. Fuel-driven; the wrapper passes `n`, which suffices
because the loop recurses only while `k < n`. -/
def retryAux (reraise : Bool) (n : Nat) (body : Nat → Except PyError String) :
    Nat → Nat → Nat → RetryTrace
  | fuel, k, w =>
    match body k with
    | Except.ok s => ⟨RetryResult.success s, k, w⟩
    | Except.error e =>
      if retryableErr e then
        if n ≤ k then
          if reraise then ⟨RetryResult.rethrown e, k, w⟩
          else ⟨RetryResult.retryError e, k, w⟩
        else
          match fuel with
          | 0 => ⟨RetryResult.retryError e, k, w⟩
          | fuel' + 1 => retryAux reraise n body fuel' (k + 1) (w + 1)
      else ⟨RetryResult.rethrown e, k, w⟩

/-- A full retryer run, starting at attempt 1 with no waits. -/
def tenacityRetry (reraise : Bool) (n : Nat)
    (body : Nat → Except PyError String) : RetryTrace :=
  retryAux reraise n body n 1 0

/-- The body `_generate` / `_agenerate` as seen by the retryer: the
missing-model contract check (`if not model: raise ValueError(...)`, with
Python falsiness covering both `None` and `""`), then the physical call,
whose outcome on attempt `k` is `env k`. -/
def genBody (model : Option String) (env : Nat → Except PyError String)
    (k : Nat) : Except PyError String :=
  match model with
  | none => Except.error PyError.valueErrorModelRequired
  | some m =>
    if m = "" then Except.error PyError.valueErrorModelRequired else env k

/-- `generate` / `agenerate`: run the retryer (with `reraise=True`) over the
body; `except RetryError: return ""` maps a `RetryError` to the empty string;
any directly raised exception propagates. (The `else: return ""` after the
`for` loop is unreachable: the loop body always returns or raises.) Returns
the result together with the attempt and wait counts. -/
def generate (model : Option String) (n : Nat)
    (env : Nat → Except PyError String) : Except PyError String × Nat × Nat :=
  let t := tenacityRetry true n (genBody model env)
  match t.result with
  | RetryResult.success s => (Except.ok s, t.attempts, t.waits)
  | RetryResult.retryError _ => (Except.ok "", t.attempts, t.waits)
  | RetryResult.rethrown e => (Except.error e, t.attempts, t.waits)

/-! ## Streaming loop of `_generate` / `_agenerate` -/

/-- The streaming branch: `for text in stream.text_stream: full_response +=
text; if callbacks: for callback in callbacks:
callback.on_llm_new_token(delta)`. The name `delta` is bound nowhere in the
function or module, so the first callback invocation raises `NameError`;
with no callbacks registered the loop just accumulates the deltas. -/
def streamLoop : List String → Nat → String → Except PyError String
  | [], _, acc => Except.ok acc
  | t :: rest, ncb, acc =>
    if 0 < ncb then Except.error PyError.nameErrorDelta
    else streamLoop rest ncb (acc ++ t)

/-- The streaming branch of `_generate`, over the stream's deltas and the
number of registered callbacks. -/
def streamGenerate (deltas : List String) (ncb : Nat) : Except PyError String :=
  streamLoop deltas ncb ""

/-! ## Structured-output enforcer (`ClaudeChatLLM._invoke_json`,
`_manual_json`, `_native_json`) -/

/-- The result record (`LLMOutput`): raw output, optional parsed JSON field,
history. The `json` field holds whatever Python value the code stores —
including the empty string `""` stored by `_manual_json`'s failure branch,
modelled as `some (JValue.str "")`. -/
structure LLMOutput where
  output : String
  json : Option JValue
  history : List Turn

/-- Modelled from the spec: `try_parse_json_object` (imported from the
repository's `utils` module, which is not part of the provided sources)
parses a text as JSON and raises (`JSONDecodeError` / `TypeError`, both
caught by `_manual_json`) when no parse exists — per §4.5: in native mode the
raw text is parsed directly, and in the manual branch "a parser failure
yields an empty output/empty parse for that attempt". -/
def tryParseJsonObject (s : String) : Except Unit JValue :=
  match parseJson s with
  | some v => Except.ok v
  | none => Except.error ()

/-- `_manual_json`: clean the raw output, then parse; on a parse exception
return `LLMOutput(output="", json="", history=history)` — note the `json`
field is set to the empty **string**, not `None`. -/
def manualJson (raw : String) (history : List Turn) : LLMOutput :=
  match tryParseJsonObject (cleanUpJson raw) with
  | Except.ok j => ⟨cleanUpJson raw, some j, history⟩
  | Except.error _ => ⟨"", some (JValue.str ""), history⟩

/-- Failure kinds escaping `_invoke_json`: an uncaught parse exception from
`_native_json`, or the terminal
`RuntimeError("Failed to generate valid JSON output")`. -/
inductive InvokeErr where
  | parseError : InvokeErr
  | failedJsonError : InvokeErr
deriving DecidableEq

/-- `_native_json`: parse the raw output directly; the parse call is not
guarded, so a parse exception propagates out of `_invoke_json`. -/
def nativeJson (raw : String) (history : List Turn) :
    Except InvokeErr LLMOutput :=
  match tryParseJsonObject raw with
  | Except.ok j => Except.ok ⟨raw, some j, history⟩
  | Except.error _ => Except.error InvokeErr.parseError

/-- `is_valid(x) = x is not None and is_response_valid(x)`. -/
def isValidX (pred : JValue → Bool) : Option JValue → Bool
  | none => false
  | some v => pred v

/-- The configuration bits `_invoke_json` consults. -/
structure JsonCfg where
  supportsJson : Bool
  modelAlt : Option String

/-- The `model` entry of the per-attempt kwargs built by the inner
`generate(attempt)`: set to the fallback model only when `attempt > 0` and a
fallback is configured (the original kwargs carry no `model` entry). -/
def attemptModelKwarg (modelAlt : Option String) (k : Nat) : Option String :=
  if 0 < k then
    match modelAlt with
    | some m => some m
    | none => none
  else none

/-- One inner `generate(attempt)` call: the physical invocation's raw text is
`env k modelKwarg` (the environment may observe the substituted model), fed
to `_native_json` or `_manual_json` according to the configuration. The
history returned by the base invoker is abstracted as empty, which no claim
depends on. -/
def genAttempt (cfg : JsonCfg) (env : Nat → Option String → String)
    (k : Nat) : Except InvokeErr LLMOutput :=
  let raw := env k (attemptModelKwarg cfg.modelAlt k)
  if cfg.supportsJson then nativeJson raw [] else Except.ok (manualJson raw [])

/-- The retry loop of `_invoke_json` (`_MAX_GENERATION_RETRIES = 3`):
`while not is_valid(result.json) and retry < 3: result = generate(retry);
retry += 1`, then return the result when valid and otherwise raise the
terminal error. Also records the list of attempt indices passed to the inner
`generate`. Fuel-driven; the wrapper passes 3, ample since the loop runs at
most twice. -/
def invokeJsonLoopT (gen : Nat → Except InvokeErr LLMOutput)
    (valid : LLMOutput → Bool) :
    Nat → Nat → LLMOutput → List Nat → List Nat × Except InvokeErr LLMOutput
  | fuel, retry, result, done =>
    if valid result then (done, Except.ok result)
    else if retry < 3 then
      match fuel with
      | 0 => (done, Except.error InvokeErr.failedJsonError)
      | fuel' + 1 =>
        match gen retry with
        | Except.error e => (done ++ [retry], Except.error e)
        | Except.ok r => invokeJsonLoopT gen valid fuel' (retry + 1) r (done ++ [retry])
    else (done, Except.error InvokeErr.failedJsonError)

/-- `_invoke_json`: attempt 0, then the bounded validity-retry loop. Returns
the attempted indices and the outcome. -/
def invokeJson (cfg : JsonCfg) (env : Nat → Option String → String)
    (pred : JValue → Bool) : List Nat × Except InvokeErr LLMOutput :=
  match genAttempt cfg env 0 with
  | Except.error e => ([0], Except.error e)
  | Except.ok r =>
    invokeJsonLoopT (genAttempt cfg env) (fun r => isValidX pred r.json) 3 1 r [0]

/-! # Helper lemmas -/

/-- If a pattern does not occur in `s`, the replacement scan leaves `s`
unchanged, whatever the fuel. -/
theorem pyReplaceGo_of_not_contains (pat repl : List Char) :
    ∀ (fuel : Nat) (s : List Char), containsSub pat s = false →
      pyReplaceGo pat repl fuel s = s := by
  intro fuel
  induction fuel with
  | zero => intro s _; rfl
  | succ f ih =>
    intro s h
    match s with
    | [] => rfl
    | c :: rest =>
      rw [containsSub, Bool.or_eq_false_iff] at h
      show (if pat ≠ [] ∧ pat.isPrefixOf (c :: rest) then _ else
        c :: pyReplaceGo pat repl f rest) = _
      rw [if_neg, ih rest h.2]
      intro hc
      rw [h.1] at hc
      exact Bool.false_ne_true hc.2

/-- If a pattern does not occur in `s`, `pyReplace` leaves `s` unchanged. -/
theorem pyReplace_of_not_contains (pat repl s : List Char)
    (h : containsSub pat s = false) : pyReplace pat repl s = s :=
  pyReplaceGo_of_not_contains pat repl s.length s h

/-- If a character does not occur in `s`, no pattern starting with it occurs. -/
theorem containsSub_single_of_cons (c : Char) (cs s : List Char)
    (h : containsSub [c] s = false) : containsSub (c :: cs) s = false := by
  induction s with
  | nil => rfl
  | cons d rest ih =>
    rw [containsSub, Bool.or_eq_false_iff] at h ⊢
    refine ⟨?_, ih h.2⟩
    have h1 := h.1
    rw [List.isPrefixOf] at h1 ⊢
    cases hbeq : c == d with
    | false => simp [hbeq]
    | true => rw [hbeq] at h1; simp at h1

/-- Rebuilding a string from its characters is the identity. -/
theorem stringMkData (s : String) : String.mk s.data = s := rfl

/-- The normalization scan, fully characterized: the extracted system message
is the content of the last system-role turn (falling back to the incoming
accumulator), and the filtered list appends the non-system turns in order. -/
theorem extractSystemGo_eq (msgs : List Turn) : ∀ (sys : Option String) (acc : List Turn),
    extractSystemGo sys acc msgs =
      (((msgs.reverse.find? (fun m => m.role == "system")).map Turn.content).or sys,
        acc ++ msgs.filter (fun m => !(m.role == "system"))) := by
  induction msgs with
  | nil => intro sys acc; simp [extractSystemGo]
  | cons m rest ih =>
    intro sys acc
    by_cases h : m.role = "system"
    · rw [extractSystemGo, if_pos h, ih]
      cases hx : rest.reverse.find? (fun m => m.role == "system") with
      | none => simp [List.find?_append, hx, h, List.filter_cons]
      | some x => simp [List.find?_append, hx, h, List.filter_cons]
    · rw [extractSystemGo, if_neg h, ih]
      cases hx : rest.reverse.find? (fun m => m.role == "system") with
      | none => simp [List.find?_append, hx, h, List.filter_cons]
      | some x => simp [List.find?_append, hx, h, List.filter_cons]

/-- With an always-rejecting predicate, no `_manual_json` result is valid
(its `json` field is `some` of a parsed value or of the empty-string
sentinel, and the predicate rejects both). -/
theorem isValidX_manualJson_false (pred : JValue → Bool)
    (hrej : ∀ v, pred v = false) (raw : String) (hist : List Turn) :
    isValidX pred (manualJson raw hist).json = false := by
  unfold manualJson
  cases htp : tryParseJsonObject (cleanUpJson raw) with
  | ok j => simp [isValidX, hrej]
  | error e => simp [isValidX, hrej]

/-- The retryer under `reraise=True` when every attempt fails with a
retryable error (`f k` on attempt `k`, not necessarily the same across
attempts): it runs through attempt `n` and re-raises the error of the final
attempt. -/
theorem retryAux_all_fail (n : Nat) (body : Nat → Except PyError String)
    (f : Nat → PyError) (hbody : ∀ k, body k = Except.error (f k))
    (hret : ∀ k, retryableErr (f k) = true) :
    ∀ (fuel k w : Nat), 1 ≤ k → k ≤ n → n - k ≤ fuel →
      retryAux true n body fuel k w =
        ⟨RetryResult.rethrown (f n), n, w + (n - k)⟩ := by
  intro fuel
  induction fuel with
  | zero =>
    intro k w h1 h2 h3
    have hkn : n ≤ k := by omega
    have hk : k = n := le_antisymm h2 hkn
    subst hk
    simp [retryAux, hbody, hret, if_pos hkn]
  | succ f ih =>
    intro k w h1 h2 h3
    by_cases hkn : n ≤ k
    · have hk : k = n := le_antisymm h2 hkn
      subst hk
      simp [retryAux, hbody, hret, if_pos hkn]
    · have hrec := ih (k + 1) (w + 1) (by omega) (by omega) (by omega)
      have harith : w + 1 + (n - (k + 1)) = w + (n - k) := by omega
      rw [harith] at hrec
      simp [retryAux, hbody, hret, if_neg hkn, hrec]

/-! # Claim theorems -/

/-- C1 counterexample. The claim says that when every one of the
`max_retries` attempts fails with a retryable error, `generate` returns the
empty string. At `model="claude-3-5-sonnet"`, `max_retries=2` and an
environment raising `RateLimitError` on every attempt, the call instead
propagates the rate-limit error (and does not return the empty string):
`reraise=True` makes the exhausted retryer re-raise the underlying
exception, so the `except RetryError: return ""` branch never runs. -/
theorem C1_counterexample :
    generate (some "claude-3-5-sonnet") 2 (fun _ => Except.error PyError.rateLimit) =
      (Except.error PyError.rateLimit, 2, 1) ∧
    (Except.error PyError.rateLimit : Except PyError String) ≠ Except.ok "" :=
  ⟨rfl, fun h => Except.noConfusion h⟩

/-- C1 (amended): for every logical call to the retry wrapper in which every
one of the `max_retries` attempts fails with a retryable error — the error
`f k` of attempt `k` may differ from attempt to attempt — the call
propagates the **last** attempt's underlying error to the caller (after
`max_retries` attempts and `max_retries - 1` backoff waits); the
empty-string fallback is dead code under `reraise=True`. -/
theorem C1_amended (n : Nat) (m : String) (env : Nat → Except PyError String)
    (f : Nat → PyError) (hm : m ≠ "") (hret : ∀ k, retryableErr (f k) = true)
    (henv : ∀ k, env k = Except.error (f k)) (hn : 1 ≤ n) :
    generate (some m) n env = (Except.error (f n), n, n - 1) := by
  have hbody : ∀ k, genBody (some m) env k = Except.error (f k) := by
    intro k
    simp [genBody, hm, henv]
  have h := retryAux_all_fail n (genBody (some m) env) f hbody hret n 1 0
    le_rfl hn (by omega)
  simp [generate, tenacityRetry, h]

/-- C1 witness: the amended theorem at `model="m"`, `max_retries=3`, on a
mixed-error exhaustion run — rate-limit failures on attempts 1 and 2, a
connection error on attempt 3 — propagating the last attempt's connection
error. -/
theorem C1_witness :
    generate (some "m") 3
      (fun k => Except.error
        (if k < 3 then PyError.rateLimit else PyError.apiConnection)) =
      (Except.error PyError.apiConnection, 3, 2) :=
  C1_amended 3 "m"
    (fun k => Except.error
      (if k < 3 then PyError.rateLimit else PyError.apiConnection))
    (fun k => if k < 3 then PyError.rateLimit else PyError.apiConnection)
    (by decide)
    (fun k => by by_cases h : k < 3 <;> simp [h, retryableErr])
    (fun k => rfl) (by decide)

/-- C2: the claim says a result returned (not raised) by `_invoke_json` has
`parsed_json` present iff JSON parsing succeeded and the predicate accepted
it. Code bug evidence: in manual-JSON mode, when the model output is
unparsable (even after cleanup) and the predicate accepts everything (as the
default predicate does), the call returns after attempt 0 with
`json = ""` — a present (non-`None`) `json` field produced by a **failed**
parse, because `_manual_json`'s failure branch stores the empty string
instead of `None` and `is_valid`'s `x is not None` test does not catch it. -/
theorem C2_code_evaluation :
    parseJson "totally not json" = none ∧
    parseJson (cleanUpJson "totally not json") = none ∧
    (invokeJson ⟨false, none⟩ (fun _ _ => "totally not json") (fun _ => true)).1 = [0] ∧
    ((invokeJson ⟨false, none⟩ (fun _ _ => "totally not json")
        (fun _ => true)).2.map LLMOutput.json) = Except.ok (some (JValue.str "")) ∧
    ((invokeJson ⟨false, none⟩ (fun _ _ => "totally not json")
        (fun _ => true)).2.map LLMOutput.output) = Except.ok "" :=
  ⟨rfl, rfl, rfl, rfl, rfl⟩

/-- C3 counterexample. The claim says every `_invoke_json` call with an
always-rejecting predicate and a configured fallback model performs exactly 3
attempts and then raises the terminal JSON-failure error. In native-JSON mode
with an unparsable model output, the unguarded parse in `_native_json`
instead propagates a parse exception right after attempt 0: only one attempt
occurs and the raised error is not the terminal JSON-failure error. -/
theorem C3_counterexample :
    invokeJson ⟨true, some "fallback"⟩ (fun _ _ => "oops") (fun _ => false) =
      ([0], Except.error InvokeErr.parseError) ∧
    ([0] : List Nat) ≠ [0, 1, 2] ∧
    InvokeErr.parseError ≠ InvokeErr.failedJsonError := by
  refine ⟨rfl, by decide, by decide⟩

/-- C3 (amended): in manual-JSON mode — where every generation attempt
returns a result instead of raising — a call with an always-rejecting
predicate and a configured fallback model performs exactly the 3 attempts
0, 1, 2 and then raises the terminal JSON-failure error; every attempt with
index ≥ 1 sets the model kwarg to the fallback model; and if attempt 0
already satisfies the predicate, only attempt 0 occurs and its result is
returned. (In native-JSON mode an unparsable output instead propagates a
parse exception immediately; see the counterexample.) -/
theorem C3_amended (env : Nat → Option String → String) (pred : JValue → Bool)
    (alt : String) :
    ((∀ v, pred v = false) →
      invokeJson ⟨false, some alt⟩ env pred =
        ([0, 1, 2], Except.error InvokeErr.failedJsonError)) ∧
    (∀ k, 0 < k → attemptModelKwarg (some alt) k = some alt) ∧
    (∀ (env2 : Nat → Option String → String) (pred2 : JValue → Bool),
      isValidX pred2 (manualJson (env2 0 none) []).json = true →
      invokeJson ⟨false, some alt⟩ env2 pred2 =
        ([0], Except.ok (manualJson (env2 0 none) []))) := by
  refine ⟨?_, ?_, ?_⟩
  · intro hrej
    have hv := isValidX_manualJson_false pred hrej
    simp [invokeJson, genAttempt, invokeJsonLoopT, hv]
  · intro k hk
    simp [attemptModelKwarg, hk]
  · intro env2 pred2 hval
    simp [invokeJson, genAttempt, attemptModelKwarg] at hval ⊢
    simp [invokeJsonLoopT, hval]

/-- C3 witness: the amended theorem's exhaustion branch at a concrete
environment and the always-false predicate, and its early-exit branch at an
environment returning valid JSON with the always-true predicate. -/
theorem C3_witness :
    invokeJson ⟨false, some "alt"⟩ (fun _ _ => "x") (fun _ => false) =
      ([0, 1, 2], Except.error InvokeErr.failedJsonError) ∧
    invokeJson ⟨false, some "alt"⟩ (fun _ _ => "\x7b\"a\": 1\x7d") (fun _ => true) =
      ([0], Except.ok (manualJson "\x7b\"a\": 1\x7d" [])) :=
  ⟨(C3_amended (fun _ _ => "x") (fun _ => false) "alt").1 (fun _ => rfl),
   (C3_amended (fun _ _ => "\x7b\"a\": 1\x7d") (fun _ => true) "alt").2.2
     (fun _ _ => "\x7b\"a\": 1\x7d") (fun _ => true) rfl⟩

/-- C4: for every turn sequence, the normalization scan's remaining list is
exactly the non-system turns in their original relative order (a filter of
the input) and so contains no system-role turn, and the extracted system
instruction is the content of the last system-role turn when one exists and
`None` otherwise. Models the identical scans in `ChatClaude.generate`,
`Claude.generate` and `ClaudeChatLLM._execute_llm`. -/
theorem C4_normalizer (msgs : List Turn) :
    (extractSystem msgs).1 =
      (msgs.reverse.find? (fun m => m.role == "system")).map Turn.content ∧
    (extractSystem msgs).2 = msgs.filter (fun m => !(m.role == "system")) ∧
    ∀ m ∈ (extractSystem msgs).2, ¬ m.role = "system" := by
  have h := extractSystemGo_eq msgs none []
  rw [extractSystem, h]
  refine ⟨by simp, by simp, ?_⟩
  intro m hm
  simp only [List.nil_append, List.mem_filter, Bool.not_eq_eq_eq_not,
    Bool.not_true] at hm
  intro hr
  have := hm.2
  simp [hr] at this

/-- C5: for every call to `generate` / `agenerate` with a missing model name
(`None` or the empty string), the `ValueError` contract violation from
`_generate` is classified non-retryable (it is not in
`CLAUDE_RETRY_ERROR_TYPES`), so the call fails immediately with it: exactly
one attempt runs and no retry wait occurs, whatever the retry budget and the
environment. -/
theorem C5_missing_model (n : Nat) (env : Nat → Except PyError String) :
    generate none n env = (Except.error PyError.valueErrorModelRequired, 1, 0) ∧
    generate (some "") n env =
      (Except.error PyError.valueErrorModelRequired, 1, 0) := by
  constructor <;>
    simp [generate, tenacityRetry, retryAux, genBody, retryableErr]

/-- C6 counterexample. The claim says `clean_up_json` returns every already
syntactically valid JSON input unchanged modulo whitespace normalization. On
the valid input `{"a": "x\ny"}` (whose value holds an escaped newline), the
unconditional `replace("\\n", "")` deletes the escape before any parse is
attempted, so the returned text parses to `{"a": "xy"}` — a different value
from the input's `{"a": "x<newline>y"}`. -/
theorem C6_counterexample :
    parseJson "\x7b\"a\": \"x\\ny\"\x7d" =
      some (JValue.obj [("a", JValue.str "x\ny")]) ∧
    cleanUpJson "\x7b\"a\": \"x\\ny\"\x7d" = "\x7b\"a\": \"xy\"\x7d" ∧
    parseJson (cleanUpJson "\x7b\"a\": \"x\\ny\"\x7d") ≠
      parseJson "\x7b\"a\": \"x\\ny\"\x7d" := by
  refine ⟨rfl, rfl, ?_⟩
  intro h
  have h2 : (some (JValue.obj [("a", JValue.str "xy")]) : Option JValue) =
      some (JValue.obj [("a", JValue.str "x\ny")]) := h
  have h3 := congrArg
    (fun o => match o with
      | some (JValue.obj ((_, JValue.str t) :: _)) => t
      | _ => "") h2
  exact absurd h3 (by decide)

/-- C6 (amended): `clean_up_json` returns a valid JSON input with the same
parsed value — indeed literally unchanged — provided the input contains none
of the unconditionally rewritten sequences (no backslash, newline or
carriage-return characters and neither quote-bracket sequence), carries no
surrounding whitespace, and is not shaped like a markdown fence; inputs
containing a rewritten sequence can change parsed value, as the
counterexample shows. -/
theorem C6_amended (s : String) (v : JValue)
    (hparse : parseJson s = some v)
    (hb : containsSub ['\\'] s.data = false)
    (hn : containsSub ['\n'] s.data = false)
    (hr : containsSub ['\r'] s.data = false)
    (hq1 : containsSub ('"' :: '[' :: '{' :: []) s.data = false)
    (hq2 : containsSub ('}' :: ']' :: '"' :: []) s.data = false)
    (hstrip : pyStrip s.data = s.data)
    (hf1 : ("```json".data).isPrefixOf s.data = false)
    (hf2 : ("json".data).isPrefixOf s.data = false)
    (hf3 : ("```".data).isSuffixOf s.data = false) :
    cleanUpJson s = s ∧ parseJson (cleanUpJson s) = parseJson s := by
  have e1 : pyReplace ['\\', 'n'] [] s.data = s.data :=
    pyReplace_of_not_contains _ _ _ (containsSub_single_of_cons '\\' ['n'] s.data hb)
  have e2 : pyReplace ['\n'] [] s.data = s.data :=
    pyReplace_of_not_contains _ _ _ hn
  have e3 : pyReplace ['\r'] [] s.data = s.data :=
    pyReplace_of_not_contains _ _ _ hr
  have e4 : pyReplace ('"' :: '[' :: '{' :: []) ('[' :: '{' :: []) s.data = s.data :=
    pyReplace_of_not_contains _ _ _ hq1
  have e5 : pyReplace ('}' :: ']' :: '"' :: []) ('}' :: ']' :: []) s.data = s.data :=
    pyReplace_of_not_contains _ _ _ hq2
  have e6 : pyReplace ['\\'] [] s.data = s.data :=
    pyReplace_of_not_contains _ _ _ hb
  have efence : stripFences s.data = s.data := by
    simp [stripFences, hf1, hf2, hf3]
  have hmain : cleanUpJsonL s.data = s.data := by
    rw [cleanUpJsonL]
    simp only [e1, e2, e3, e4, e5, e6, hstrip, efence]
    rw [show parseJsonL s.data = some v from hparse]
  have hcu : cleanUpJson s = s := by
    rw [cleanUpJson, hmain, stringMkData]
  exact ⟨hcu, by rw [hcu]⟩

/-- C6 witness: the amended theorem at the valid input `{"a": 1}`, which
contains none of the rewritten sequences. -/
theorem C6_witness :
    cleanUpJson "\x7b\"a\": 1\x7d" = "\x7b\"a\": 1\x7d" ∧
    parseJson (cleanUpJson "\x7b\"a\": 1\x7d") = parseJson "\x7b\"a\": 1\x7d" :=
  C6_amended "\x7b\"a\": 1\x7d" (JValue.obj [("a", JValue.num 1)])
    rfl rfl rfl rfl rfl rfl rfl rfl rfl rfl

/-- C7 counterexample. The claim says that on `'{"a":1}{"b":2}'` the repair
step recovers both objects. In fact the balanced-brace regex matches only the
first object `{"a":1}`, which parses successfully, so `fix_json_structure` is
never invoked and `extract_json_object` returns the single object
`{"a": 1}` — not a two-element array (nor any array) and not a parse
failure. -/
theorem C7_counterexample :
    extractJsonObjectL ("\x7b\"a\":1\x7d\x7b\"b\":2\x7d".data) =
      some (JValue.obj [("a", JValue.num 1)]) ∧
    (∀ xs : List JValue, JValue.obj [("a", JValue.num 1)] ≠ JValue.arr xs) ∧
    JValue.obj [("a", JValue.num 1)] ≠
      JValue.obj [("a", JValue.num 1), ("b", JValue.num 2)] := by
  refine ⟨rfl, fun xs h => JValue.noConfusion h, ?_⟩
  intro h
  have h2 := congrArg (fun v => match v with
    | JValue.obj xs => xs.length
    | _ => 0) h
  exact absurd h2 (by decide)

/-- C7 (amended): on the input `'{"a":1}{"b":2}'` the parser neither fails
nor recovers both objects: direct parsing fails ("Extra data"), the
balanced-brace search matches exactly the first object `{"a":1}`, that
substring parses, so the comma-insertion repair is never reached and
`clean_up_json` returns the dump of the first object alone, `'{"a": 1}'`. -/
theorem C7_first_object_only :
    parseJson "\x7b\"a\":1\x7d\x7b\"b\":2\x7d" = none ∧
    regexSearch ("\x7b\"a\":1\x7d\x7b\"b\":2\x7d".data) =
      some ("\x7b\"a\":1\x7d".data) ∧
    parseJsonL ("\x7b\"a\":1\x7d".data) = some (JValue.obj [("a", JValue.num 1)]) ∧
    extractJsonObjectL ("\x7b\"a\":1\x7d\x7b\"b\":2\x7d".data) =
      some (JValue.obj [("a", JValue.num 1)]) ∧
    cleanUpJson "\x7b\"a\":1\x7d\x7b\"b\":2\x7d" = "\x7b\"a\": 1\x7d" :=
  ⟨rfl, rfl, rfl, rfl, rfl⟩

/-- C8: the JSON recovery parser never raises — every Python-level
`JSONDecodeError` is caught at both call sites, which the embedding reflects
by total, `Option`-valued functions: `extract_json_object` yields `none` or
an object for every input. In particular, on `'no json here at all'` (which
contains no JSON object) it returns `None` and `clean_up_json` returns the
input unchanged. -/
theorem C8_no_raise :
    (∀ s : List Char, extractJsonObjectL s = none ∨
      ∃ v, extractJsonObjectL s = some v) ∧
    extractJsonObjectL ("no json here at all".data) = none ∧
    cleanUpJson "no json here at all" = "no json here at all" := by
  refine ⟨?_, rfl, rfl⟩
  intro s
  cases h : extractJsonObjectL s with
  | none => exact Or.inl rfl
  | some v => exact Or.inr ⟨v, rfl⟩

/-- C9: the claim says each registered callback receives each just-arrived
text delta. Code bug evidence: the streaming loop of `_generate` /
`_agenerate` passes the unbound name `delta` to `on_llm_new_token` (the loop
variable is `text`), so with one registered callback the first delta raises
`NameError` instead of invoking the callback with the delta; with no
callbacks the loop does accumulate and return the concatenation of the
deltas. -/
theorem C9_code_evaluation :
    streamGenerate ["hi"] 1 = Except.error PyError.nameErrorDelta ∧
    (∀ (deltas : List String) (rest : List String) (d : String) (ncb : Nat),
      deltas = d :: rest → 0 < ncb →
      streamGenerate deltas ncb = Except.error PyError.nameErrorDelta) ∧
    streamGenerate ["a", "b"] 0 = Except.ok "ab" := by
  refine ⟨rfl, ?_, rfl⟩
  intro deltas rest d ncb hd hn
  subst hd
  simp [streamGenerate, streamLoop, hn]

/-- C10: for every call to `generate` / `agenerate` whose `messages` argument
is a plain string, the string is silently discarded: the `isinstance` guard
skips the extraction scan and the unconditional `messages =
filtered_messages` leaves an empty turn list, so the transmitted request has
an empty message list and no system instruction, whatever the string said. -/
theorem C10_string_discarded (s : String) (m : String) :
    normalizeArg (MessagesArg.str s) = (none, []) ∧
    sentRequest m (MessagesArg.str s) = ⟨m, none, []⟩ :=
  ⟨rfl, rfl⟩
